import Mathlib

/-!
Verification of the per-speaker translation pipeline of
`src/exploration/speech_to_speech_orchestrator.py` (the primary orchestrator;
`src/exploration/BaashhaX_Translation.py` repeats the same control flow).

The Python code is an asyncio dataflow: audio → VAD → STT, and for every
final transcript a fan-out of per-language translate → publish-subtitle →
synthesize → publish-audio branches, gathered before the next transcript is
consumed.  We embed the control flow shallowly:

* external service calls (OpenAI translation, Sarvam TTS) become function
  parameters whose results include the failure modes the code handles
  (`Except` for a raised exception, `Option` for a `None` content, a trailing
  `Option` for a TTS stream that raises after yielding some frames);
* the observable side effects of a branch (`publish_data`,
  `audio_source.capture_frame`, log lines) become an effect list;
* the `asyncio.gather` of one utterance's branch tasks becomes an arbitrary
  interleaving of the branch effect lists, and consecutive utterances
  contribute consecutive blocks, because `_run` awaits the gather before the
  `async for` loop consumes the next STT event;
* the retry loop of `_run` (lines 81-190) becomes a recursive function over
  the outcome of each attempt;
* the registry of `entrypoint` (lines 314-344) becomes explicit state
  passing over an association list, with pipeline construction modelled by a
  fresh-id counter and `asyncio.create_task(pipeline.close())` by a list of
  scheduled-but-not-run closes.
-/

namespace BaashhaX

/-- One entry of `TRANSLATION_CONFIG` (lines 24-43): static per-language
configuration.  The `prompt` field is carried as opaque data. -/
structure LangConfig where
  room_name : String
  lang_code : String
  speaker : String
  prompt : String
deriving DecidableEq

/-- `TRANSLATION_CONFIG` (lines 24-43), in Python dict insertion order. -/
def TRANSLATION_CONFIG : List (String × LangConfig) :=
  [ ("kannada",
      { room_name := "kannada-room", lang_code := "kn-IN", speaker := "anushka",
        prompt := "You are a live translator. Translate the user's speech from English to Kannada. Respond concisely and accurately with only the translation." }),
    ("tamil",
      { room_name := "tamil-room", lang_code := "ta-IN", speaker := "anushka",
        prompt := "You are a live translator. Translate the user's speech from English to Tamil. Respond concisely and accurately with only the translation." }),
    ("hindi",
      { room_name := "hindi-room", lang_code := "hi-IN", speaker := "anushka",
        prompt := "You are a live translator. Translate the user's speech from English to Hindi. Respond concisely and accurately with only the translation." }) ]

/-- The `livekit.agents.stt.SpeechEventType` values the loop inspects. -/
inductive SpeechEventType
  | startOfSpeech
  | interimTranscript
  | finalTranscript
  | endOfSpeech
deriving DecidableEq

/-- An STT stream event: its type and the texts of its alternatives. -/
structure SpeechEvent where
  type : SpeechEventType
  alternatives : List String
deriving DecidableEq

/-- Line 133: `text = event.alternatives[0].text if event.alternatives else ""`. -/
def transcriptText (e : SpeechEvent) : String :=
  match e.alternatives with
  | [] => ""
  | t :: _ => t

/-- Python `str.strip()`: removes leading and trailing whitespace. -/
def pyStrip (text : String) : String :=
  String.mk ((((text.data.dropWhile Char.isWhitespace).reverse).dropWhile
    Char.isWhitespace).reverse)

/-- Line 136: the guard `if not text or len(text.strip()) < 2: continue`. -/
def skipTranscript (text : String) : Bool :=
  text == "" || (pyStrip text).length < 2

/-- Lines 132-138: a transcript event launches translation branches exactly
when it is a `FINAL_TRANSCRIPT` and its text survives the length guard. -/
def launchesBranches (e : SpeechEvent) : Bool :=
  e.type == SpeechEventType.finalTranscript && !skipTranscript (transcriptText e)

/-- The texts the `_run` loop fans out on, in arrival order. -/
def finalTexts (events : List SpeechEvent) : List String :=
  events.filterMap fun e =>
    if launchesBranches e then some (transcriptText e) else none

/-- Synthesized audio frames are opaque; only their count and order matter. -/
abbrev Frame := Nat

/-- Result of the external translation call (`sync_translate`, lines 203-213,
run in an executor): `Except.error` models a raised exception, `Except.ok
none` a `None` message content, `Except.ok (some s)` a string content. -/
abbrev Translator := String → String → Except String (Option String)

/-- Result of `tts.synthesize` consumed by the `async for frame` loop
(lines 233-238): the frames yielded, then `some err` if the stream raised
after yielding them (`none` for a clean end). -/
abbrev Synthesizer := String → String → List Frame × Option String

/-- Observable side effects of one branch (`_translate_and_publish_task`,
lines 192-243): `publish_data` on the room participant,
`audio_source.capture_frame`, and the warning/error log lines. -/
inductive BranchEffect
  | publishData (topic : String) (payload : String)
  | captureFrame (lang : String) (frame : Frame)
  | logWarning (lang : String)
  | logError (lang : String)
deriving DecidableEq

/-- `TranslationPipeline._translate_and_publish_task` (lines 192-243) as an
effect list.  A raised translation exception is caught by the handler at
line 242 (one error log, nothing published); a falsy translated text
(`None` or the empty string, line 218) warns and returns; otherwise the
subtitle is published first (lines 225-228), then each synthesized frame is
captured in order (lines 236-238), with a TTS exception after some frames
again caught at line 242.  The outbound publish calls themselves are
modelled as non-failing external sinks. -/
def translate_and_publish_task (translate : Translator) (synthesize : Synthesizer)
    (lang : String) (text : String) : List BranchEffect :=
  match translate lang text with
  | Except.error _ => [BranchEffect.logError lang]
  | Except.ok none => [BranchEffect.logWarning lang]
  | Except.ok (some translated) =>
    if translated == "" then
      [BranchEffect.logWarning lang]
    else
      BranchEffect.publishData ("subtitles-" ++ lang) translated ::
        match synthesize lang translated with
        | (frames, none) => frames.map (BranchEffect.captureFrame lang)
        | (frames, some _) =>
            frames.map (BranchEffect.captureFrame lang) ++ [BranchEffect.logError lang]

/-- The `TranslationPipeline` class has no closing flag: `close` (lines
245-258) only cancels `_task`, and `_translate_and_publish_task` never
consults any close state.  To state spec claims about behaviour once
closing has begun we thread a `closeRequested` boolean; faithfully to the
source, the branch body ignores it. -/
def translate_and_publish_task_closing (closeRequested : Bool)
    (translate : Translator) (synthesize : Synthesizer)
    (lang : String) (text : String) : List BranchEffect :=
  translate_and_publish_task translate synthesize lang text

/-- Lines 144-159: the loop over `TRANSLATION_CONFIG.items()` skips a
language whose room is absent from `translation_rooms` (`if not room:
continue`) and creates one branch task per remaining language, in
configuration order.  `translation_rooms` is modelled by the list of
languages whose room connection succeeded. -/
def launchedLangs (translation_rooms : List String) : List String :=
  (TRANSLATION_CONFIG.filter fun p => translation_rooms.contains p.1).map Prod.fst

/-- The branch effect lists of one utterance's gathered tasks, in launch
order. -/
def utteranceBranches (translate : Translator) (synthesize : Synthesizer)
    (translation_rooms : List String) (text : String) : List (List BranchEffect) :=
  (launchedLangs translation_rooms).map fun lang =>
    translate_and_publish_task translate synthesize lang text

/-- An interleaving of several sequential effect lists: the order within
each list is preserved, and the result is built by repeatedly taking the
head of one of the lists.  This is how the cooperatively scheduled branch
tasks of one `asyncio.gather` may order their effects. -/
inductive Interleaving {α : Type} : List (List α) → List α → Prop
  | nil (ls : List (List α)) (h : ∀ l ∈ ls, l = []) : Interleaving ls []
  | step (pre : List (List α)) (x : α) (xs : List α) (post : List (List α))
      (tr : List α) (h : Interleaving (pre ++ xs :: post) tr) :
      Interleaving (pre ++ (x :: xs) :: post) (x :: tr)

/-- The possible effect traces of the transcript-consumption loop (lines
129-169): events are consumed in order; an event that fails the
`launchesBranches` gate contributes nothing; a passing final transcript
contributes some interleaving of its branches' effect lists, and — because
line 162 awaits `asyncio.gather` of all branch tasks before the `async
for` loop consumes the next event — that whole block precedes every effect
of later events. -/
inductive PipelineTrace (translate : Translator) (synthesize : Synthesizer)
    (translation_rooms : List String) : List SpeechEvent → List BranchEffect → Prop
  | nil : PipelineTrace translate synthesize translation_rooms [] []
  | skip {e : SpeechEvent} {events : List SpeechEvent} {tr : List BranchEffect}
      (hskip : launchesBranches e = false)
      (h : PipelineTrace translate synthesize translation_rooms events tr) :
      PipelineTrace translate synthesize translation_rooms (e :: events) tr
  | utter {e : SpeechEvent} {events : List SpeechEvent}
      {iv tr : List BranchEffect}
      (hfin : launchesBranches e = true)
      (hiv : Interleaving
        (utteranceBranches translate synthesize translation_rooms (transcriptText e)) iv)
      (h : PipelineTrace translate synthesize translation_rooms events tr) :
      PipelineTrace translate synthesize translation_rooms (e :: events) (iv ++ tr)

/-- Close (lines 245-258) cancels `_task`; the `async for` loop of `_run`
therefore consumes no further STT events.  A run on which close was
requested after `k` consumed events behaves as the run on the first `k`
events. -/
def PipelineTraceClosed (translate : Translator) (synthesize : Synthesizer)
    (translation_rooms : List String) (events : List SpeechEvent) (k : Nat)
    (tr : List BranchEffect) : Prop :=
  PipelineTrace translate synthesize translation_rooms (events.take k) tr

/-- Selects the subtitle payload published for language `lang`: branch
subtitles are published with topic `subtitles-{lang}` (line 227). -/
def subtitleOf (lang : String) (eff : BranchEffect) : Option String :=
  match eff with
  | BranchEffect.publishData topic payload =>
      if topic == "subtitles-" ++ lang then some payload else none
  | _ => none

/-- The subtitle payloads for language `lang` occurring in a trace, in
publish order. -/
def subtitlesFor (lang : String) (tr : List BranchEffect) : List String :=
  tr.filterMap (subtitleOf lang)

/-- Recognizes an audio-frame capture effect (`audio_source.capture_frame`,
line 237). -/
def isCaptureFrame : BranchEffect → Bool
  | BranchEffect.captureFrame _ _ => true
  | _ => false

/-- Observable steps of the retry loop of `_run` (lines 81-190). -/
inductive PipeAction
  | createStreams
  | sttLoop (ok : Bool)
  | logSuccess
  | sleepBackoff (seconds : Nat)
  | logGiveUp
  | cancelForwardTasks
deriving DecidableEq

/-- The `while retry_count < max_retries` loop of `_run` (lines 84-190).
`outcome k` tells whether the attempt entered with `retry_count = k` runs
its STT loop to a clean end (`true`) or raises (`false`).  Each iteration
creates fresh `vad_stream`/`stt_stream` instances (lines 87-88,
`createStreams`); on success it logs and breaks (lines 172-173); on an
exception it increments `retry_count` and either sleeps the 2-second
backoff and iterates again (lines 179-181) or logs giving up and breaks
(lines 182-184); the `finally` block cancels the two forwarding tasks in
every iteration (lines 185-190, `cancelForwardTasks`). -/
def runRetryLoop (outcome : Nat → Bool) (maxRetries : Nat) (retryCount : Nat) :
    List PipeAction :=
  if _h : retryCount < maxRetries then
    if outcome retryCount then
      [PipeAction.createStreams, PipeAction.sttLoop true,
       PipeAction.logSuccess, PipeAction.cancelForwardTasks]
    else if retryCount + 1 < maxRetries then
      [PipeAction.createStreams, PipeAction.sttLoop false,
       PipeAction.sleepBackoff 2, PipeAction.cancelForwardTasks]
        ++ runRetryLoop outcome maxRetries (retryCount + 1)
    else
      [PipeAction.createStreams, PipeAction.sttLoop false,
       PipeAction.logGiveUp, PipeAction.cancelForwardTasks]
  else []
termination_by maxRetries - retryCount
decreasing_by omega

/-- Line 81-82: `max_retries = 3`, `retry_count = 0`. -/
def pipelineRun (outcome : Nat → Bool) : List PipeAction :=
  runRetryLoop outcome 3 0

/-- `rtc.TrackKind` as the subscription handler inspects it (line 321). -/
inductive TrackKind
  | audio
  | video
deriving DecidableEq

/-- State of `entrypoint`'s registry (lines 314-344): the `pipelines` dict
as an association list from participant identity to an abstract pipeline
id, a counter supplying the id of the next `TranslationPipeline(...)`
constructed, and the close tasks scheduled via `asyncio.create_task` that
have not yet run. -/
structure OrchestratorState where
  pipelines : List (String × Nat)
  nextPipelineId : Nat
  pendingCloses : List Nat
deriving DecidableEq

/-- Dict lookup `pipelines.get(identity)`. -/
def lookupPipeline (ps : List (String × Nat)) (identity : String) : Option Nat :=
  (ps.find? fun p => p.1 == identity).map Prod.snd

/-- `on_track_subscribed` (lines 317-338): ignores non-audio tracks;
returns unchanged if `participant.identity in pipelines` (lines 322-324);
otherwise constructs a pipeline, registers it, and starts it (lines
326-336). -/
def on_track_subscribed (st : OrchestratorState) (kind : TrackKind)
    (identity : String) : OrchestratorState :=
  if kind == TrackKind.audio then
    if (lookupPipeline st.pipelines identity).isSome then st
    else
      { st with
        pipelines := st.pipelines ++ [(identity, st.nextPipelineId)],
        nextPipelineId := st.nextPipelineId + 1 }
  else st

/-- `on_participant_disconnected` (lines 340-344): if the identity has a
pipeline, `pipelines.pop(identity)` removes it synchronously and
`asyncio.create_task(pipeline.close())` schedules (but does not run) the
close. -/
def on_participant_disconnected (st : OrchestratorState) (identity : String) :
    OrchestratorState :=
  match lookupPipeline st.pipelines identity with
  | none => st
  | some pid =>
      { st with
        pipelines := st.pipelines.filter fun p => !(p.1 == identity),
        pendingCloses := st.pendingCloses ++ [pid] }

/-- Room notifications dispatched to the two handlers (lines 346-347). -/
inductive RoomEvent
  | trackSubscribed (kind : TrackKind) (identity : String)
  | participantDisconnected (identity : String)
deriving DecidableEq

/-- Dispatch of one room notification. -/
def stepEvent (st : OrchestratorState) : RoomEvent → OrchestratorState
  | RoomEvent.trackSubscribed kind identity => on_track_subscribed st kind identity
  | RoomEvent.participantDisconnected identity => on_participant_disconnected st identity

/-- A sequence of room notifications applied in order. -/
def runEvents (st : OrchestratorState) (evs : List RoomEvent) : OrchestratorState :=
  evs.foldl stepEvent st

/-- The registry starts empty (`pipelines: dict[str, TranslationPipeline] = {}`,
line 315). -/
def initialState : OrchestratorState :=
  { pipelines := [], nextPipelineId := 0, pendingCloses := [] }

/-- Mock translator returning its input unchanged (spec round-trip mock). -/
def idTranslate : Translator := fun _ text => Except.ok (some text)

/-- Mock synthesizer returning one frame per character of its input text,
ending cleanly (spec round-trip mock). -/
def charFrameSynth : Synthesizer := fun _ text => (List.range text.length, none)

/-- Mock translator raising an exception for one distinguished language and
behaving as the identity elsewhere. -/
def failingTranslateAt (bad : String) : Translator := fun lang text =>
  if lang == bad then Except.error ("boom") else Except.ok (some text)

/-- Mock translator returning the empty string for one distinguished
language and the identity elsewhere. -/
def emptyTranslateAt (bad : String) : Translator := fun lang text =>
  if lang == bad then Except.ok (some ("")) else Except.ok (some text)

/-! Helper lemmas. -/

/-- String append is left-cancellative; used to tell the per-language
subtitle topics apart. -/
theorem strAppendCancel {s a b : String} (h : s ++ a = s ++ b) : a = b := by
  have hd : s.data ++ a.data = s.data ++ b.data := by
    have hdata := congrArg String.data h
    simpa using hdata
  have hab : a.data = b.data := by
    exact List.append_cancel_left hd
  cases a
  cases b
  exact congrArg String.mk (by simpa using hab)

/-- The length of an interleaving is the sum of the component lengths. -/
theorem Interleaving.length_eq {α : Type} {ls : List (List α)} {tr : List α}
    (h : Interleaving ls tr) : tr.length = (ls.map List.length).sum := by
  induction h with
  | nil ls h =>
      have : ∀ n ∈ ls.map List.length, n = 0 := by
        intro n hn
        rcases List.mem_map.1 hn with ⟨l, hl, rfl⟩
        simp [h l hl]
      simp [List.sum_eq_zero this]
  | step pre x xs post tr h ih =>
      simp [List.map_append, List.sum_append] at ih ⊢
      omega

/-- Each component of an interleaving is a sublist of it. -/
theorem Interleaving.sublist_of_mem {α : Type} {ls : List (List α)} {tr : List α}
    (h : Interleaving ls tr) : ∀ b ∈ ls, b.Sublist tr := by
  induction h with
  | nil ls h =>
      intro b hb
      simp [h b hb]
  | step pre x xs post tr h ih =>
      intro b hb
      rcases List.mem_append.1 hb with hpre | hrest
      · exact List.Sublist.cons x (ih b (List.mem_append.2 (Or.inl hpre)))
      · rcases List.mem_cons.1 hrest with heq | hpost
        · subst heq
          exact List.Sublist.cons₂ x
            (ih xs (List.mem_append.2 (Or.inr (List.mem_cons_self _ _))))
        · exact List.Sublist.cons x
            (ih b (List.mem_append.2 (Or.inr (List.mem_cons_of_mem _ hpost))))

/-- Interleavings are stable under `filterMap` applied componentwise. -/
theorem Interleaving.filterMap {α β : Type} (f : α → Option β)
    {ls : List (List α)} {tr : List α} (h : Interleaving ls tr) :
    Interleaving (ls.map (List.filterMap f)) (tr.filterMap f) := by
  induction h with
  | nil ls h =>
      apply Interleaving.nil
      intro l hl
      rcases List.mem_map.1 hl with ⟨a, ha, rfl⟩
      simp [h a ha]
  | step pre x xs post tr h ih =>
      rw [List.map_append, List.map_cons]
      cases hfx : f x with
      | none =>
          rw [List.filterMap_cons_none hfx, List.filterMap_cons_none hfx]
          simpa [List.map_append, List.map_cons] using ih
      | some y =>
          rw [List.filterMap_cons_some hfx, List.filterMap_cons_some hfx]
          exact Interleaving.step (pre.map (List.filterMap f)) y (xs.filterMap f)
            (post.map (List.filterMap f)) _
            (by simpa [List.map_append, List.map_cons] using ih)

/-- If every component but one is empty, the interleaving is that one
component. -/
theorem Interleaving.eq_of_single {α : Type} {pre post : List (List α)}
    {b tr : List α} (h : Interleaving (pre ++ b :: post) tr)
    (hpre : ∀ l ∈ pre, l = []) (hpost : ∀ l ∈ post, l = []) : tr = b := by
  have hsub : b.Sublist tr :=
    h.sublist_of_mem b (List.mem_append.2 (Or.inr (List.mem_cons_self _ _)))
  have hpre0 : ((pre.map List.length).sum) = 0 := by
    apply List.sum_eq_zero
    intro n hn
    rcases List.mem_map.1 hn with ⟨l, hl, rfl⟩
    simp [hpre l hl]
  have hpost0 : ((post.map List.length).sum) = 0 := by
    apply List.sum_eq_zero
    intro n hn
    rcases List.mem_map.1 hn with ⟨l, hl, rfl⟩
    simp [hpost l hl]
  have hlen : tr.length = b.length := by
    have := h.length_eq
    simp [List.map_append, List.sum_append, hpre0, hpost0] at this
    omega
  exact (hsub.eq_of_length hlen.symm).symm

/-- The languages launched for an utterance are pairwise distinct: they come
from the keys of `TRANSLATION_CONFIG`, which are distinct. -/
theorem launchedLangs_nodup (translation_rooms : List String) :
    (launchedLangs translation_rooms).Nodup := by
  have hsub : (launchedLangs translation_rooms).Sublist
      (TRANSLATION_CONFIG.map Prod.fst) :=
    List.Sublist.map Prod.fst (List.filter_sublist TRANSLATION_CONFIG)
  have hnd : (TRANSLATION_CONFIG.map Prod.fst).Nodup := by decide
  exact hnd.sublist hsub

/-- A branch for a language other than `lang` publishes no subtitle with
topic `subtitles-{lang}`. -/
theorem branch_subtitles_ne (translate : Translator) (synthesize : Synthesizer)
    {l lang : String} (hne : l ≠ lang) (text : String) :
    (translate_and_publish_task translate synthesize l text).filterMap
      (subtitleOf lang) = [] := by
  have htopic : (("subtitles-" ++ l == "subtitles-" ++ lang) = false) := by
    apply beq_false_of_ne
    intro hc
    exact hne (strAppendCancel hc)
  unfold translate_and_publish_task
  cases translate l text with
  | error m => simp [subtitleOf]
  | ok o =>
    cases o with
    | none => simp [subtitleOf]
    | some tx =>
      by_cases htx : (tx == "") = true
      · simp [htx, subtitleOf]
      · rcases hsy : synthesize l tx with ⟨frames, err⟩
        cases err with
        | none =>
            simp [htx, hsy, subtitleOf, htopic, List.filterMap_map, Function.comp]
        | some msg =>
            simp [htx, hsy, subtitleOf, htopic, List.filterMap_map, Function.comp]

/-- Any interleaving of one utterance's branches publishes, for a launched
language `lang`, exactly the subtitles of `lang`'s own branch. -/
theorem interleaving_subtitles (translate : Translator) (synthesize : Synthesizer)
    {translation_rooms : List String} {lang text : String} {iv : List BranchEffect}
    (hmem : lang ∈ launchedLangs translation_rooms)
    (hiv : Interleaving
      (utteranceBranches translate synthesize translation_rooms text) iv) :
    subtitlesFor lang iv =
      subtitlesFor lang (translate_and_publish_task translate synthesize lang text) := by
  have h2 := hiv.filterMap (subtitleOf lang)
  rw [utteranceBranches, List.map_map] at h2
  obtain ⟨s1, s2, hsplit⟩ := List.append_of_mem hmem
  have hnd : (launchedLangs translation_rooms).Nodup :=
    launchedLangs_nodup translation_rooms
  rw [hsplit] at h2 hnd
  have hcons : (lang :: (s1 ++ s2)).Nodup := List.nodup_middle.mp hnd
  have hnotmem : lang ∉ s1 ++ s2 := (List.nodup_cons.mp hcons).1
  rw [List.map_append, List.map_cons] at h2
  have heq : iv.filterMap (subtitleOf lang) =
      (translate_and_publish_task translate synthesize lang text).filterMap
        (subtitleOf lang) := by
    apply h2.eq_of_single
    · intro l hl
      rcases List.mem_map.1 hl with ⟨a, ha, rfl⟩
      have hane : a ≠ lang := by
        intro hcontra
        subst hcontra
        exact hnotmem (List.mem_append.2 (Or.inl ha))
      simpa using branch_subtitles_ne translate synthesize hane text
    · intro l hl
      rcases List.mem_map.1 hl with ⟨a, ha, rfl⟩
      have hane : a ≠ lang := by
        intro hcontra
        subst hcontra
        exact hnotmem (List.mem_append.2 (Or.inr ha))
      simpa using branch_subtitles_ne translate synthesize hane text
  simpa [subtitlesFor] using heq

/-- The subtitles of a full pipeline trace for a launched language are, in
order, the subtitles of that language's branch applied to each processed
final transcript. -/
theorem pipelineTrace_subtitles (translate : Translator) (synthesize : Synthesizer)
    {translation_rooms : List String} {lang : String}
    {events : List SpeechEvent} {tr : List BranchEffect}
    (hmem : lang ∈ launchedLangs translation_rooms)
    (h : PipelineTrace translate synthesize translation_rooms events tr) :
    subtitlesFor lang tr =
      (finalTexts events).flatMap fun text =>
        subtitlesFor lang (translate_and_publish_task translate synthesize lang text) := by
  induction h with
  | nil => simp [subtitlesFor, finalTexts]
  | @skip e evs tr2 hskip hrest ih =>
      have hft : finalTexts (e :: evs) = finalTexts evs := by
        simp [finalTexts, List.filterMap_cons, hskip]
      rw [hft]
      exact ih
  | @utter e evs iv tr2 hfin hiv hrest ih =>
      have hft : finalTexts (e :: evs) = transcriptText e :: finalTexts evs := by
        simp [finalTexts, List.filterMap_cons, hfin]
      rw [hft, List.flatMap_cons]
      rw [show subtitlesFor lang (iv ++ tr2) =
            subtitlesFor lang iv ++ subtitlesFor lang tr2 from by
          simp [subtitlesFor]]
      rw [interleaving_subtitles translate synthesize hmem hiv, ih]

/-- A single effect list interleaves with itself (the schedule in which one
branch runs alone). -/
theorem interleaving_single {α : Type} (l : List α) : Interleaving [l] l := by
  induction l with
  | nil => exact Interleaving.nil [[]] (by simp)
  | cons x xs ih => exact Interleaving.step [] x xs [] xs ih

/-- Demo final transcript event used by concrete witnesses. -/
def demoEvent : SpeechEvent :=
  { type := SpeechEventType.finalTranscript, alternatives := ["hello there"] }

/-- Demo room set with only the Tamil room connected. -/
def demoRooms : List String := ["tamil"]

/-- The effect list of the demo utterance's single Tamil branch under the
round-trip mocks. -/
def demoTrace : List BranchEffect :=
  translate_and_publish_task idTranslate charFrameSynth ("tamil") ("hello there")

/-- C1: utterances are processed strictly in arrival order — because line
162 awaits `asyncio.gather` of all branch tasks of the current utterance
before the `async for` loop consumes the next STT event, every trace of
the loop is a concatenation of per-utterance blocks, so for one speaker
and one language the subtitle publishes occur in the same order as the
source final transcripts: they equal, in order, the per-utterance branch
subtitles of the processed final texts. -/
theorem C1_subtitle_order (translate : Translator) (synthesize : Synthesizer)
    (translation_rooms : List String) (lang : String)
    (events : List SpeechEvent) (tr : List BranchEffect)
    (hmem : lang ∈ launchedLangs translation_rooms)
    (htr : PipelineTrace translate synthesize translation_rooms events tr) :
    subtitlesFor lang tr =
      (finalTexts events).flatMap fun text =>
        subtitlesFor lang (translate_and_publish_task translate synthesize lang text) :=
  pipelineTrace_subtitles translate synthesize hmem htr

/-- Witness for C1 at a concrete one-utterance run. -/
theorem C1_subtitle_order_witness :
    (("tamil") ∈ launchedLangs demoRooms ∧
      PipelineTrace idTranslate charFrameSynth demoRooms [demoEvent] demoTrace) ∧
    subtitlesFor ("tamil") demoTrace =
      (finalTexts [demoEvent]).flatMap fun text =>
        subtitlesFor ("tamil")
          (translate_and_publish_task idTranslate charFrameSynth ("tamil") text) := by
  have hmem : ("tamil") ∈ launchedLangs demoRooms := by decide
  have hul : utteranceBranches idTranslate charFrameSynth demoRooms
      (transcriptText demoEvent) = [demoTrace] := by decide
  have hiv : Interleaving (utteranceBranches idTranslate charFrameSynth demoRooms
      (transcriptText demoEvent)) demoTrace := by
    rw [hul]
    exact interleaving_single demoTrace
  have hfin : launchesBranches demoEvent = true := by decide
  have htr : PipelineTrace idTranslate charFrameSynth demoRooms [demoEvent] demoTrace := by
    have h0 : PipelineTrace idTranslate charFrameSynth demoRooms [demoEvent]
        (demoTrace ++ []) := PipelineTrace.utter hfin hiv PipelineTrace.nil
    simpa using h0
  exact ⟨⟨hmem, htr⟩,
    C1_subtitle_order idTranslate charFrameSynth demoRooms ("tamil")
      [demoEvent] demoTrace hmem htr⟩

/-- C2: a set of translation branches is launched for a transcript event
exactly when the event is a `FINAL_TRANSCRIPT` whose text has trimmed
length at least 2; interim events and short/empty/absent texts are
filtered by the gate at lines 132-138.  `launchesBranches` is the gate
used by `finalTexts` and by the `PipelineTrace` semantics, so a gate value
of `false` means no branch and hence no translation or synthesis call. -/
theorem C2_launch_gate (e : SpeechEvent) :
    launchesBranches e = true ↔
      (e.type = SpeechEventType.finalTranscript ∧
        2 ≤ (pyStrip (transcriptText e)).length) := by
  constructor
  · intro h
    rcases (Bool.and_eq_true _ _).mp h with ⟨h1, h2⟩
    refine ⟨by simpa using h1, ?_⟩
    have h3 : skipTranscript (transcriptText e) = false := by
      simpa using h2
    unfold skipTranscript at h3
    rcases Bool.or_eq_false_iff.mp h3 with ⟨_, h5⟩
    have h6 : ¬ (pyStrip (transcriptText e)).length < 2 := of_decide_eq_false h5
    omega
  · rintro ⟨h1, h2⟩
    have hne : (transcriptText e == "") = false := by
      apply beq_false_of_ne
      intro hq
      rw [hq] at h2
      exact absurd h2 (by decide)
    have hlt : (decide ((pyStrip (transcriptText e)).length < 2)) = false := by
      apply decide_eq_false
      omega
    unfold launchesBranches skipTranscript
    rw [hne, hlt]
    simp [h1]

/-- Witness for C2 at the demo final transcript. -/
theorem C2_launch_gate_witness :
    launchesBranches demoEvent = true ↔
      (demoEvent.type = SpeechEventType.finalTranscript ∧
        2 ≤ (pyStrip (transcriptText demoEvent)).length) :=
  C2_launch_gate demoEvent

/-- C3: for every final transcript passing the length filter, the number
of launched branches equals the number of configured language targets
whose room is present in `translation_rooms` (lines 144-159), and the
result of a launched language's branch is fully determined by that
language's own translator and synthesizer — replacing every other
language's services (including by raising ones) neither removes the branch
nor changes its effects, because each branch catches its own exceptions
(line 242) and the gather at line 162 uses `return_exceptions=True`. -/
theorem C3_branch_fanout (translation_rooms : List String) (text : String)
    (t t2 : Translator) (s s2 : Synthesizer) (lang : String) (i : Nat)
    (hi : (launchedLangs translation_rooms)[i]? = some lang)
    (ht : ∀ x, t lang x = t2 lang x) (hs : ∀ x, s lang x = s2 lang x) :
    (utteranceBranches t s translation_rooms text).length =
      (TRANSLATION_CONFIG.filter fun p => translation_rooms.contains p.1).length ∧
    (utteranceBranches t s translation_rooms text)[i]? =
      some (translate_and_publish_task t2 s2 lang text) := by
  constructor
  · simp [utteranceBranches, launchedLangs]
  · rw [utteranceBranches, List.getElem?_map, hi]
    have hbr : translate_and_publish_task t s lang text =
        translate_and_publish_task t2 s2 lang text := by
      unfold translate_and_publish_task
      rw [ht text]
      cases t2 lang text with
      | error m => rfl
      | ok o =>
        cases o with
        | none => rfl
        | some tx =>
          by_cases htx : (tx == "") = true
          · simp [htx]
          · simp only [htx, if_false, Bool.false_eq_true, hs tx]
    simp [hbr]

/-- Witness for C3: with all three rooms connected, the Kannada translator
raising does not disturb the Hindi branch at launch position 2. -/
theorem C3_branch_fanout_witness :
    ((launchedLangs ["kannada", "tamil", "hindi"])[2]? = some ("hindi")) ∧
    (utteranceBranches (failingTranslateAt ("kannada")) charFrameSynth
        ["kannada", "tamil", "hindi"] ("hello")).length =
      (TRANSLATION_CONFIG.filter
        fun p => (["kannada", "tamil", "hindi"] : List String).contains p.1).length ∧
    (utteranceBranches (failingTranslateAt ("kannada")) charFrameSynth
        ["kannada", "tamil", "hindi"] ("hello"))[2]? =
      some (translate_and_publish_task idTranslate charFrameSynth ("hindi") ("hello")) := by
  refine ⟨by decide, ?_⟩
  exact C3_branch_fanout ["kannada", "tamil", "hindi"] ("hello")
    (failingTranslateAt ("kannada")) idTranslate charFrameSynth charFrameSynth
    ("hindi") 2 (by decide)
    (fun x => by simp [failingTranslateAt, idTranslate])
    (fun x => rfl)

/-- C4: on a session-level error the loop of `_run` cancels the forwarding
tasks in its `finally` block, sleeps the fixed 2-second backoff, and
re-enters the loop body creating fresh VAD/STT streams, for at most 3
attempts in total (`max_retries = 3`); when the third attempt also fails
it logs giving up and the loop terminates — the trace of an all-failing
run is exactly three attempts, with a backoff and a teardown between
consecutive attempts and nothing after the final teardown. -/
theorem C4_retry_bound (outcome : Nat → Bool)
    (h0 : outcome 0 = false) (h1 : outcome 1 = false) (h2 : outcome 2 = false) :
    pipelineRun outcome =
      [PipeAction.createStreams, PipeAction.sttLoop false,
       PipeAction.sleepBackoff 2, PipeAction.cancelForwardTasks,
       PipeAction.createStreams, PipeAction.sttLoop false,
       PipeAction.sleepBackoff 2, PipeAction.cancelForwardTasks,
       PipeAction.createStreams, PipeAction.sttLoop false,
       PipeAction.logGiveUp, PipeAction.cancelForwardTasks] ∧
    (pipelineRun outcome).countP
      (fun a => a == PipeAction.createStreams) = 3 := by
  have htrace : pipelineRun outcome =
      [PipeAction.createStreams, PipeAction.sttLoop false,
       PipeAction.sleepBackoff 2, PipeAction.cancelForwardTasks,
       PipeAction.createStreams, PipeAction.sttLoop false,
       PipeAction.sleepBackoff 2, PipeAction.cancelForwardTasks,
       PipeAction.createStreams, PipeAction.sttLoop false,
       PipeAction.logGiveUp, PipeAction.cancelForwardTasks] := by
    unfold pipelineRun
    rw [runRetryLoop]
    simp only [h0]
    rw [runRetryLoop]
    simp only [h1]
    rw [runRetryLoop]
    simp only [h2]
    norm_num
  exact ⟨htrace, by rw [htrace]; decide⟩

/-- Witness for C4 at the always-failing outcome. -/
theorem C4_retry_bound_witness :
    pipelineRun (fun _ => false) =
      [PipeAction.createStreams, PipeAction.sttLoop false,
       PipeAction.sleepBackoff 2, PipeAction.cancelForwardTasks,
       PipeAction.createStreams, PipeAction.sttLoop false,
       PipeAction.sleepBackoff 2, PipeAction.cancelForwardTasks,
       PipeAction.createStreams, PipeAction.sttLoop false,
       PipeAction.logGiveUp, PipeAction.cancelForwardTasks] ∧
    (pipelineRun (fun _ => false)).countP
      (fun a => a == PipeAction.createStreams) = 3 :=
  C4_retry_bound (fun _ => false) rfl rfl rfl

/-- Mock synthesizer whose stream raises immediately, yielding no frames. -/
def noFrameSynth : Synthesizer := fun _ _ => ([], some ("tts-error"))

/-- C5 counterexample: the claim says the pipeline's internal publish
calls become no-ops once closing begins, but `TranslationPipeline` has no
closing guard — a branch executed after a close request still publishes
its subtitle (and captures its audio frames) exactly as before, so at this
concrete input the trace under `closeRequested = true` contains a subtitle
publish instead of being publish-free. -/
theorem C5_counterexample :
    subtitlesFor ("tamil")
      (translate_and_publish_task_closing true idTranslate charFrameSynth
        ("tamil") ("hello")) = [("hello")] ∧
    (translate_and_publish_task_closing true idTranslate charFrameSynth
        ("tamil") ("hello")).countP isCaptureFrame = 5 := by
  decide

/-- C5 amended: requesting close does not alter a branch's publish
behaviour (the branch body never consults the close state), and no new
branches are launched after close because the cancelled transcript loop
consumes no further events — a run closed after `k` consumed events
publishes exactly the subtitles of the first `k` events' processed final
transcripts. -/
theorem C5_close_behavior (c : Bool) (translate : Translator)
    (synthesize : Synthesizer) (translation_rooms : List String)
    (lang text : String) (events : List SpeechEvent) (k : Nat)
    (tr : List BranchEffect)
    (hmem : lang ∈ launchedLangs translation_rooms)
    (htr : PipelineTraceClosed translate synthesize translation_rooms events k tr) :
    translate_and_publish_task_closing c translate synthesize lang text =
      translate_and_publish_task translate synthesize lang text ∧
    subtitlesFor lang tr =
      (finalTexts (events.take k)).flatMap fun t2 =>
        subtitlesFor lang (translate_and_publish_task translate synthesize lang t2) :=
  ⟨rfl, pipelineTrace_subtitles translate synthesize hmem htr⟩

/-- Witness for C5's amended statement: a run closed before consuming any
event publishes nothing, and the close flag leaves the branch unchanged. -/
theorem C5_close_behavior_witness :
    (("tamil") ∈ launchedLangs demoRooms ∧
      PipelineTraceClosed idTranslate charFrameSynth demoRooms [demoEvent] 0 []) ∧
    translate_and_publish_task_closing true idTranslate charFrameSynth
        ("tamil") ("hello") =
      translate_and_publish_task idTranslate charFrameSynth ("tamil") ("hello") ∧
    subtitlesFor ("tamil") [] =
      (finalTexts ([demoEvent].take 0)).flatMap fun t2 =>
        subtitlesFor ("tamil")
          (translate_and_publish_task idTranslate charFrameSynth ("tamil") t2) := by
  have hmem : ("tamil") ∈ launchedLangs demoRooms := by decide
  have htr : PipelineTraceClosed idTranslate charFrameSynth demoRooms
      [demoEvent] 0 [] := PipelineTrace.nil
  exact ⟨⟨hmem, htr⟩,
    C5_close_behavior true idTranslate charFrameSynth demoRooms ("tamil")
      ("hello") [demoEvent] 0 [] hmem htr⟩

/-- C6: an empty translation result (a `None` content or the empty string,
line 218) makes the branch warn and return without publishing a subtitle,
without invoking synthesis (the effects are independent of the
synthesizer), and without capturing any audio frame, while a sibling
language of the same utterance whose translation is non-empty still
publishes its subtitle and all its frames. -/
theorem C6_empty_translation_drop (t : Translator) (s s2 : Synthesizer)
    (lang text lang2 tx : String) (frames : List Frame)
    (hempty : t lang text = Except.ok none ∨ t lang text = Except.ok (some ("")))
    (hsib : t lang2 text = Except.ok (some tx)) (htx : ¬ tx = "")
    (hfr : s lang2 tx = (frames, none)) :
    translate_and_publish_task t s lang text = [BranchEffect.logWarning lang] ∧
    translate_and_publish_task t s2 lang text =
      translate_and_publish_task t s lang text ∧
    translate_and_publish_task t s lang2 text =
      BranchEffect.publishData ("subtitles-" ++ lang2) tx ::
        frames.map (BranchEffect.captureFrame lang2) := by
  have htx2 : (tx == "") = false := beq_false_of_ne htx
  rcases hempty with h | h
  · exact ⟨by simp [translate_and_publish_task, h],
      by simp [translate_and_publish_task, h],
      by simp [translate_and_publish_task, hsib, htx2, hfr]⟩
  · exact ⟨by simp [translate_and_publish_task, h],
      by simp [translate_and_publish_task, h],
      by simp [translate_and_publish_task, hsib, htx2, hfr]⟩

/-- Witness for C6: Kannada translates to the empty string while Tamil
still receives its subtitle and frames. -/
theorem C6_empty_translation_drop_witness :
    ((emptyTranslateAt ("kannada")) ("kannada") ("hello") =
        Except.ok (some ("")) ∧
      (emptyTranslateAt ("kannada")) ("tamil") ("hello") =
        Except.ok (some ("hello")) ∧
      charFrameSynth ("tamil") ("hello") = ([0, 1, 2, 3, 4], none)) ∧
    translate_and_publish_task (emptyTranslateAt ("kannada")) charFrameSynth
        ("kannada") ("hello") = [BranchEffect.logWarning ("kannada")] ∧
    translate_and_publish_task (emptyTranslateAt ("kannada")) noFrameSynth
        ("kannada") ("hello") =
      translate_and_publish_task (emptyTranslateAt ("kannada")) charFrameSynth
        ("kannada") ("hello") ∧
    translate_and_publish_task (emptyTranslateAt ("kannada")) charFrameSynth
        ("tamil") ("hello") =
      BranchEffect.publishData ("subtitles-" ++ "tamil") ("hello") ::
        ([0, 1, 2, 3, 4] : List Frame).map (BranchEffect.captureFrame ("tamil")) := by
  refine ⟨⟨rfl, rfl, rfl⟩, ?_⟩
  exact C6_empty_translation_drop (emptyTranslateAt ("kannada")) charFrameSynth
    noFrameSynth ("kannada") ("hello") ("tamil") ("hello") [0, 1, 2, 3, 4]
    (Or.inr rfl) rfl (by decide) rfl

/-- C8: whenever the translated text is non-empty, the subtitle publish
(lines 225-228) is the branch's first effect, executed before any
synthesized audio frame is captured, and its occurrence and payload do not
depend on the synthesizer at all — audio synthesis cannot block it. -/
theorem C8_subtitle_first (t : Translator) (s : Synthesizer)
    (lang text tx : String) (h : t lang text = Except.ok (some tx))
    (htx : ¬ tx = "") :
    (translate_and_publish_task t s lang text).head? =
      some (BranchEffect.publishData ("subtitles-" ++ lang) tx) := by
  have htx2 : (tx == "") = false := beq_false_of_ne htx
  rcases hsy : s lang tx with ⟨frames, err⟩
  cases err with
  | none => simp [translate_and_publish_task, h, htx2, hsy]
  | some msg => simp [translate_and_publish_task, h, htx2, hsy]

/-- Witness for C8: even under a synthesizer that raises before yielding
any frame, the Tamil subtitle heads the branch trace. -/
theorem C8_subtitle_first_witness :
    (idTranslate ("tamil") ("hello") = Except.ok (some ("hello")) ∧
      noFrameSynth ("tamil") ("hello") = ([], some ("tts-error"))) ∧
    (translate_and_publish_task idTranslate noFrameSynth
        ("tamil") ("hello")).head? =
      some (BranchEffect.publishData ("subtitles-" ++ "tamil") ("hello")) := by
  refine ⟨⟨rfl, rfl⟩, ?_⟩
  exact C8_subtitle_first idTranslate noFrameSynth ("tamil") ("hello") ("hello")
    rfl (by decide)

/-- C9: round-trip — under the identity mock translator and the
one-frame-per-character mock synthesizer, every utterance that passes the
launch filter has exactly one captured audio frame per character of its
translated text. -/
theorem C9_frame_count (lang text : String)
    (h : skipTranscript text = false) :
    (translate_and_publish_task idTranslate charFrameSynth lang text).countP
      isCaptureFrame = text.length := by
  have hne : (text == "") = false := (Bool.or_eq_false_iff.mp h).1
  rw [translate_and_publish_task]
  simp only [idTranslate, charFrameSynth, hne, Bool.false_eq_true, if_false]
  rw [List.countP_cons_of_neg _ _ (by simp [isCaptureFrame])]
  rw [List.countP_map]
  rw [List.countP_eq_length.mpr (fun a _ => by simp [Function.comp, isCaptureFrame])]
  exact List.length_range text.length

/-- Witness for C9 on a five-character utterance. -/
theorem C9_frame_count_witness :
    skipTranscript ("hello") = false ∧
    (translate_and_publish_task idTranslate charFrameSynth
        ("tamil") ("hello")).countP isCaptureFrame = ("hello" : String).length :=
  ⟨by decide, C9_frame_count ("tamil") ("hello") (by decide)⟩

/-- One room notification preserves distinctness of the registry's
identity keys. -/
theorem step_preserves_nodup (st : OrchestratorState) (ev : RoomEvent)
    (h : (st.pipelines.map Prod.fst).Nodup) :
    ((stepEvent st ev).pipelines.map Prod.fst).Nodup := by
  cases ev with
  | trackSubscribed kind identity =>
      by_cases hk : (kind == TrackKind.audio) = true
      · by_cases hp : (lookupPipeline st.pipelines identity).isSome = true
        · simpa [stepEvent, on_track_subscribed, hk, hp] using h
        · have hfind : st.pipelines.find? (fun p => p.1 == identity) = none := by
            cases hfe : st.pipelines.find? fun p => p.1 == identity with
            | none => rfl
            | some p => exact absurd (by simp [lookupPipeline, hfe]) hp
          have hnotin : identity ∉ st.pipelines.map Prod.fst := by
            intro hmem
            rcases List.mem_map.1 hmem with ⟨p, hpmem, hfst⟩
            have hnp := List.find?_eq_none.mp hfind p hpmem
            rw [hfst] at hnp
            simp at hnp
          rw [stepEvent, on_track_subscribed, if_pos hk, if_neg (by simp [hp])]
          simp only [List.map_append, List.map_cons, List.map_nil]
          rw [List.nodup_append]
          exact ⟨h, List.nodup_singleton identity,
            fun a ha hb => by
              rcases List.mem_singleton.mp hb with rfl
              exact hnotin ha⟩
      · simpa [stepEvent, on_track_subscribed, hk] using h
  | participantDisconnected identity =>
      cases hl : lookupPipeline st.pipelines identity with
      | none => simpa [stepEvent, on_participant_disconnected, hl] using h
      | some pid =>
          have hsub : ((st.pipelines.filter fun p => !(p.1 == identity)).map
              Prod.fst).Sublist (st.pipelines.map Prod.fst) :=
            List.Sublist.map Prod.fst (List.filter_sublist st.pipelines)
          have hnd := h.sublist hsub
          simpa [stepEvent, on_participant_disconnected, hl] using hnd

/-- C7: registration is idempotent and the registry never holds two
pipelines for one identity — an audio subscription for an identity already
in `pipelines` (lines 322-324) returns without constructing or registering
anything, and from the empty initial registry every sequence of
subscription/disconnect notifications leaves the identity keys pairwise
distinct. -/
theorem C7_registry_idempotent (st : OrchestratorState) (identity : String)
    (evs : List RoomEvent)
    (hid : (lookupPipeline st.pipelines identity).isSome = true) :
    on_track_subscribed st TrackKind.audio identity = st ∧
    ((runEvents initialState evs).pipelines.map Prod.fst).Nodup := by
  refine ⟨by simp [on_track_subscribed, hid], ?_⟩
  have key : ∀ (l : List RoomEvent) (st0 : OrchestratorState),
      (st0.pipelines.map Prod.fst).Nodup →
      ((runEvents st0 l).pipelines.map Prod.fst).Nodup := by
    intro l
    induction l with
    | nil =>
        intro st0 h
        simpa [runEvents] using h
    | cons ev rest ih =>
        intro st0 h
        rw [runEvents, List.foldl_cons]
        exact ih (stepEvent st0 ev) (step_preserves_nodup st0 ev h)
  exact key evs initialState (by simp [initialState])

/-- Witness for C7: a concrete registry with an existing pipeline for
`alice` and a concrete notification sequence. -/
theorem C7_registry_idempotent_witness :
    (lookupPipeline [(("alice"), 0)] ("alice")).isSome = true ∧
    on_track_subscribed
        { pipelines := [(("alice"), 0)], nextPipelineId := 1, pendingCloses := [] }
        TrackKind.audio ("alice") =
      { pipelines := [(("alice"), 0)], nextPipelineId := 1, pendingCloses := [] } ∧
    ((runEvents initialState
        [RoomEvent.trackSubscribed TrackKind.audio ("alice"),
         RoomEvent.trackSubscribed TrackKind.audio ("alice"),
         RoomEvent.trackSubscribed TrackKind.audio ("bob"),
         RoomEvent.participantDisconnected ("alice"),
         RoomEvent.trackSubscribed TrackKind.audio ("alice")]).pipelines.map
      Prod.fst).Nodup := by
  refine ⟨by decide, ?_, ?_⟩
  · exact (C7_registry_idempotent
      { pipelines := [(("alice"), 0)], nextPipelineId := 1, pendingCloses := [] }
      ("alice") [] (by decide)).1
  · exact (C7_registry_idempotent
      { pipelines := [(("alice"), 0)], nextPipelineId := 1, pendingCloses := [] }
      ("alice")
      [RoomEvent.trackSubscribed TrackKind.audio ("alice"),
       RoomEvent.trackSubscribed TrackKind.audio ("alice"),
       RoomEvent.trackSubscribed TrackKind.audio ("bob"),
       RoomEvent.participantDisconnected ("alice"),
       RoomEvent.trackSubscribed TrackKind.audio ("alice")] (by decide)).2

/-- C10: the disconnect handler removes the identity from the registry
synchronously (`pipelines.pop`, line 343) while the close is only
scheduled (`asyncio.create_task(pipeline.close())`, line 344): right after
the handler the identity is absent even though its close is still pending,
and a subsequent audio subscription for the same identity registers a
fresh pipeline distinct from the closed one. -/
theorem C10_disconnect_sync (st : OrchestratorState) (identity : String)
    (pid : Nat) (h : lookupPipeline st.pipelines identity = some pid)
    (hlt : pid < st.nextPipelineId) :
    lookupPipeline (on_participant_disconnected st identity).pipelines identity =
      none ∧
    (on_participant_disconnected st identity).pendingCloses =
      st.pendingCloses ++ [pid] ∧
    lookupPipeline
      (on_track_subscribed (on_participant_disconnected st identity)
        TrackKind.audio identity).pipelines identity = some st.nextPipelineId ∧
    st.nextPipelineId ≠ pid := by
  have hfields : on_participant_disconnected st identity =
      { st with
        pipelines := st.pipelines.filter fun p => !(p.1 == identity),
        pendingCloses := st.pendingCloses ++ [pid] } := by
    rw [on_participant_disconnected, h]
  have hnone : lookupPipeline
      (st.pipelines.filter fun p => !(p.1 == identity)) identity = none := by
    rw [lookupPipeline]
    rw [List.find?_eq_none.mpr ?hall]
    · rfl
    case hall =>
      intro p hp
      have hkeep := List.of_mem_filter hp
      simpa using hkeep
  refine ⟨by rw [hfields]; exact hnone, by rw [hfields], ?_, by omega⟩
  rw [hfields]
  rw [on_track_subscribed]
  simp only [beq_self_eq_true, if_true]
  rw [hnone]
  simp only [Option.isSome_none, Bool.false_eq_true, if_false]
  rw [lookupPipeline, List.find?_append,
    List.find?_eq_none.mpr (fun p hp => by simpa using List.of_mem_filter hp)]
  simp [lookupPipeline]

/-- Witness for C10 at a one-entry registry. -/
theorem C10_disconnect_sync_witness :
    (lookupPipeline [(("alice"), 0)] ("alice") = some 0 ∧ 0 < 1) ∧
    lookupPipeline
      (on_participant_disconnected
        { pipelines := [(("alice"), 0)], nextPipelineId := 1, pendingCloses := [] }
        ("alice")).pipelines ("alice") = none ∧
    (on_participant_disconnected
      { pipelines := [(("alice"), 0)], nextPipelineId := 1, pendingCloses := [] }
      ("alice")).pendingCloses = [] ++ [0] ∧
    lookupPipeline
      (on_track_subscribed
        (on_participant_disconnected
          { pipelines := [(("alice"), 0)], nextPipelineId := 1, pendingCloses := [] }
          ("alice"))
        TrackKind.audio ("alice")).pipelines ("alice") = some 1 ∧
    (1 : Nat) ≠ 0 := by
  refine ⟨⟨by decide, by decide⟩, ?_⟩
  exact C10_disconnect_sync
    { pipelines := [(("alice"), 0)], nextPipelineId := 1, pendingCloses := [] }
    ("alice") 0 (by decide) (by decide)

end BaashhaX
